import Mathlib

/-!
Verification of the mantaray wave ray-tracing package (Python layer).

The Python sources under `src/python/mantaray/` and
`src/notebooks/canonical_examples/utils.py` are embedded shallowly:
floating-point arithmetic is idealised as exact real arithmetic,
fallible Python code returns `Except PyErr`, and the
`datetime.datetime.now()` side effect of the binding wrappers becomes an
explicit argument. The Rust extension module `_mantaray` is not part of
the repository sources; where a claim depends on it, it is modelled from
the specification and marked as such in the doc comment.
-/

/-- Kinds of Python runtime errors raised by the embedded code:
division by zero (`float / 0.0`), a `TypeError` from a call that does
not bind all required parameters, and a `NameError` from reading an
unbound local variable. -/
inductive PyErr where
  | zeroDivision
  | typeError
  | nameError
  deriving DecidableEq, Repr

namespace Utils

open scoped Classical

/-- Gravity constant `g = 9.81`, module-level constant of
`utils.py`. -/
noncomputable def g : ℝ := 9.81

/-- Embeds `period2wavenumber(T)` from `utils.py`: `k = (2 * math.pi)**2 / (g * T**2)`. -/
noncomputable def period2wavenumber (T : ℝ) : ℝ :=
  (2 * Real.pi) ^ 2 / (g * T ^ 2)

/-- Embeds `group_velocity(k)` from `utils.py`: `c_g = (g / k)**0.5 / 2`.
In Python, `g / k` raises `ZeroDivisionError` when `k = 0`; otherwise
the value is returned. (For `k < 0` Python would produce a complex
number; no claim touches that region, and `Real.sqrt` of a negative is
an unreached modelling artifact.) -/
noncomputable def group_velocity (k : ℝ) : Except PyErr ℝ :=
  if k = 0 then .error .zeroDivision
  else .ok (Real.sqrt (g / k) / 2)

/-- Embeds `np.diff` on a 1-D array: successive differences. -/
def np_diff : List ℝ → List ℝ
  | a :: b :: rest => (b - a) :: np_diff (b :: rest)
  | _ => []

/-- Embeds `.mean()` of a 1-D array: sum divided by length. (NumPy yields NaN
on an empty array; every claim supplies at least two coordinates, so
the empty case is unreached.) -/
noncomputable def mean (l : List ℝ) : ℝ := l.sum / l.length

/-- Embeds `np.max` / `.max()` of a 1-D array. (NumPy raises on an empty
array; every claim supplies a nonempty array, so the default in the
empty case is unreached.) -/
noncomputable def npMax : List ℝ → ℝ
  | [] => 0
  | a :: rest => rest.foldl max a

/-- Embeds `np.min` of a 1-D array, same conventions as `npMax`. -/
noncomputable def npMin : List ℝ → ℝ
  | [] => 0
  | a :: rest => rest.foldl min a

/-- Python 3 `round` to an integer: round half to even (banker's
rounding). -/
noncomputable def pyRound (x : ℝ) : ℤ :=
  if Int.fract x < 1 / 2 then ⌊x⌋
  else if Int.fract x = 1 / 2 then (if Even ⌊x⌋ then ⌊x⌋ else ⌊x⌋ + 1)
  else ⌊x⌋ + 1

/-- Embeds `compute_cfl(x, y, k0)` from `utils.py`:
`dd = np.min([np.diff(x).mean(), np.diff(y).mean()]); cfl = dd / c_g`
with `c_g = group_velocity(k0)`; a zero `c_g` would raise
`ZeroDivisionError` at the final division. -/
noncomputable def compute_cfl (x y : List ℝ) (k0 : ℝ) : Except PyErr ℝ :=
  let dd := min (mean (np_diff x)) (mean (np_diff y))
  match group_velocity k0 with
  | .error e => .error e
  | .ok cg => if cg = 0 then .error .zeroDivision else .ok (dd / cg)

/-- Embeds `compute_duration(x, k0)` from `utils.py`:
`c_g = group_velocity(k0); return round(x.max() / c_g)`. -/
noncomputable def compute_duration (x : List ℝ) (k0 : ℝ) : Except PyErr ℤ :=
  match group_velocity k0 with
  | .error e => .error e
  | .ok cg => if cg = 0 then .error .zeroDivision
              else .ok (pyRound (npMax x / cg))

/-- A coordinate array is ascending: strictly increasing entries. -/
def Ascending (l : List ℝ) : Prop := List.Chain' (· < ·) l

/-- The duration rule as the specification words it: domain extent in x
(`x.max − x.min`) divided by the deep-water group velocity at `k0`,
rounded to the nearest integer second. Spec-side definition, for
comparison with `compute_duration`, which is embedded from the source. -/
noncomputable def recommended_duration_spec (x : List ℝ) (k0 : ℝ) :
    Except PyErr ℤ :=
  match group_velocity k0 with
  | .error e => .error e
  | .ok cg => if cg = 0 then .error .zeroDivision
              else .ok (pyRound ((npMax x - npMin x) / cg))

end Utils

namespace Utils

/-- The 10-second wavenumber is within `10⁻⁴` of `0.0402` rad/m. -/
lemma period2wavenumber_ten_approx :
    |period2wavenumber 10 - 0.0402| < 0.0001 := by
  unfold period2wavenumber g
  rw [abs_lt]
  have h1 := Real.pi_gt_d6
  have h2 := Real.pi_lt_d6
  constructor <;> nlinarith [Real.pi_pos]

/-- C4: for every period `T > 0`, `period2wavenumber` returns
`k = (2π/T)² / g` with `g = 9.81`; in particular
`period2wavenumber 10` is within `10⁻⁴` of `0.0402` rad/m. -/
theorem C4_period2wavenumber_formula (T : ℝ) (hT : 0 < T) :
    period2wavenumber T = (2 * Real.pi / T) ^ 2 / g ∧
    |period2wavenumber 10 - 0.0402| < 0.0001 := by
  have hT0 : T ≠ 0 := ne_of_gt hT
  refine ⟨?_, period2wavenumber_ten_approx⟩
  unfold period2wavenumber g
  field_simp
  ring

/-- Witness for C4 at the concrete period `T = 10`. -/
theorem C4_period2wavenumber_formula_witness :
    (0 : ℝ) < 10 ∧
    (period2wavenumber 10 = (2 * Real.pi / 10) ^ 2 / g ∧
     |period2wavenumber 10 - 0.0402| < 0.0001) :=
  ⟨by norm_num, C4_period2wavenumber_formula 10 (by norm_num)⟩

/-- The wavenumber of a 10-second deep-water wave, exact form. -/
lemma period2wavenumber_ten : period2wavenumber 10 = 4 * Real.pi ^ 2 / 981 := by
  unfold period2wavenumber g
  norm_num
  ring

/-- The group velocity at that wavenumber, exact form: `98.1 / (4π)`. -/
lemma group_velocity_ten_second :
    group_velocity (period2wavenumber 10) = .ok (98.1 / (4 * Real.pi)) := by
  have hpi := Real.pi_pos
  have hk : period2wavenumber 10 ≠ 0 := by
    rw [period2wavenumber_ten]; positivity
  unfold group_velocity
  rw [if_neg hk]
  have hquot : g / period2wavenumber 10 = (98.1 / (2 * Real.pi)) ^ 2 := by
    rw [period2wavenumber_ten]
    unfold g
    field_simp
    ring
  rw [hquot, Real.sqrt_sq (by positivity)]
  congr 1
  rw [div_div]
  congr 1
  ring

/-- C2 counterexample: the group velocity of a 10-second deep-water
wave as computed by the code is `98.1/(4π) ≈ 7.81 m/s`, which is more
than `3` away from the claimed `3.9 m/s`. -/
theorem C2_counterexample :
    group_velocity (period2wavenumber 10) = .ok (98.1 / (4 * Real.pi)) ∧
    3 < |98.1 / (4 * Real.pi) - 3.9| := by
  refine ⟨group_velocity_ten_second, ?_⟩
  have hpi := Real.pi_pos
  have h2 := Real.pi_lt_d6
  have hgt : (6.9 : ℝ) < 98.1 / (4 * Real.pi) := by
    rw [lt_div_iff₀ (by positivity)]
    nlinarith
  rw [abs_of_pos (by nlinarith)]
  nlinarith

/-- C2 amended: for a 10-second deep-water wave,
`wavenumber_from_period(10) ≈ 0.0402 rad/m` and the deep-water group
velocity there is approximately `7.8 m/s` (within `0.01`), not 3.9. -/
theorem C2_group_velocity_ten_second_amended :
    |period2wavenumber 10 - 0.0402| < 0.0001 ∧
    ∃ c, group_velocity (period2wavenumber 10) = .ok c ∧ |c - 7.8| < 0.01 := by
  refine ⟨period2wavenumber_ten_approx,
    98.1 / (4 * Real.pi), group_velocity_ten_second, ?_⟩
  have hpi := Real.pi_pos
  have h1 := Real.pi_gt_d6
  have h2 := Real.pi_lt_d6
  rw [abs_lt]
  constructor
  · have hlow : (7.79 : ℝ) < 98.1 / (4 * Real.pi) := by
      rw [lt_div_iff₀ (by positivity)]
      nlinarith
    linarith
  · have hhigh : 98.1 / (4 * Real.pi) < 7.81 := by
      rw [div_lt_iff₀ (by positivity)]
      nlinarith
    linarith

/-- For a positive wavenumber, `group_velocity` succeeds with the
positive value `√(g/k)/2`. -/
lemma group_velocity_ok (k : ℝ) (hk : 0 < k) :
    group_velocity k = .ok (Real.sqrt (g / k) / 2) ∧
    0 < Real.sqrt (g / k) / 2 := by
  have hgk : 0 < g / k := div_pos (by unfold g; norm_num) hk
  refine ⟨?_, div_pos (Real.sqrt_pos.mpr hgk) (by norm_num)⟩
  unfold group_velocity
  rw [if_neg (ne_of_gt hk)]

/-- Exact value `group_velocity 9.81 = 1/2` (since `g = 9.81`). -/
lemma group_velocity_g : group_velocity 9.81 = .ok (1 / 2) := by
  unfold group_velocity g
  rw [if_neg (by norm_num)]
  rw [show (9.81 : ℝ) / 9.81 = 1 by norm_num, Real.sqrt_one]

/-- Python `round` agrees with the floor when the fractional part is
below one half. -/
lemma pyRound_eq_of_lt_half (x : ℝ) (n : ℤ) (h1 : (n : ℝ) ≤ x)
    (h2 : x < n + 1 / 2) : pyRound x = n := by
  have hf : ⌊x⌋ = n := Int.floor_eq_iff.mpr ⟨h1, by linarith⟩
  have hfr : Int.fract x < 1 / 2 := by
    rw [← Int.self_sub_floor, hf]
    linarith
  unfold pyRound
  rw [if_pos hfr, hf]

/-- When `group_velocity` succeeds with a nonzero value, `compute_cfl`
divides the minimal mean spacing by it. -/
lemma compute_cfl_ok (x y : List ℝ) (k0 cg : ℝ)
    (h : group_velocity k0 = .ok cg) (hcg : cg ≠ 0) :
    compute_cfl x y k0 =
      .ok (min (mean (np_diff x)) (mean (np_diff y)) / cg) := by
  unfold compute_cfl
  rw [h]
  exact if_neg hcg

/-- When `group_velocity` succeeds with a nonzero value,
`compute_duration` rounds `x.max()` divided by it. -/
lemma compute_duration_ok (x : List ℝ) (k0 cg : ℝ)
    (h : group_velocity k0 = .ok cg) (hcg : cg ≠ 0) :
    compute_duration x k0 = .ok (pyRound (npMax x / cg)) := by
  unfold compute_duration
  rw [h]
  exact if_neg hcg

/-- Same reduction for the spec-side duration rule. -/
lemma recommended_duration_spec_ok (x : List ℝ) (k0 cg : ℝ)
    (h : group_velocity k0 = .ok cg) (hcg : cg ≠ 0) :
    recommended_duration_spec x k0 =
      .ok (pyRound ((npMax x - npMin x) / cg)) := by
  unfold recommended_duration_spec
  rw [h]
  exact if_neg hcg

/-- C3 counterexample: on the ascending array `x = [1, 2]` with
`k0 = 9.81` (group velocity exactly `1/2`), the code returns
`round(x.max() / c_g) = round(4) = 4`, while the claimed formula
`round((x.max − x.min) / c_g)` gives `round(2) = 2`. -/
theorem C3_counterexample :
    Ascending [(1 : ℝ), 2] ∧ (0 : ℝ) < 9.81 ∧
    compute_duration [(1 : ℝ), 2] 9.81 = .ok 4 ∧
    recommended_duration_spec [(1 : ℝ), 2] 9.81 = .ok 2 := by
  have hmax : npMax [(1 : ℝ), 2] = 2 := by
    simp [npMax, max_def]
  have hmin : npMin [(1 : ℝ), 2] = 1 := by
    simp [npMin, min_def]
  refine ⟨?_, by norm_num, ?_, ?_⟩
  · simp only [Ascending, List.chain'_cons, List.chain'_singleton, and_true]
    norm_num
  · rw [compute_duration_ok _ _ _ group_velocity_g (by norm_num), hmax,
      show (2 : ℝ) / (1 / 2) = 4 by norm_num,
      pyRound_eq_of_lt_half 4 4 (by norm_num) (by norm_num)]
  · rw [recommended_duration_spec_ok _ _ _ group_velocity_g (by norm_num),
      hmax, hmin, show ((2 : ℝ) - 1) / (1 / 2) = 2 by norm_num,
      pyRound_eq_of_lt_half 2 2 (by norm_num) (by norm_num)]

/-- C3 amended: for every ascending nonempty `x_coords` and `k0 > 0`,
`compute_duration` returns `x_coords.max` (not the extent
`max − min`) divided by the deep-water group velocity at `k0`, rounded
half-to-even to the nearest integer second. -/
theorem C3_compute_duration_amended (x : List ℝ) (k0 : ℝ)
    (_hx : Ascending x) (_hne : x ≠ []) (hk : 0 < k0) :
    ∃ cg, group_velocity k0 = .ok cg ∧
      compute_duration x k0 = .ok (pyRound (npMax x / cg)) := by
  obtain ⟨h, hpos⟩ := group_velocity_ok k0 hk
  exact ⟨_, h, compute_duration_ok x k0 _ h (ne_of_gt hpos)⟩

/-- Witness for C3 (amended) at `x = [1, 2]`, `k0 = 9.81`. -/
theorem C3_compute_duration_amended_witness :
    Ascending [(1 : ℝ), 2] ∧ ([(1 : ℝ), 2] ≠ []) ∧ (0 : ℝ) < 9.81 ∧
    (∃ cg, group_velocity 9.81 = .ok cg ∧
      compute_duration [(1 : ℝ), 2] 9.81 = .ok (pyRound (npMax [(1 : ℝ), 2] / cg))) := by
  have hasc : Ascending [(1 : ℝ), 2] := by
    simp only [Ascending, List.chain'_cons, List.chain'_singleton, and_true]
    norm_num
  exact ⟨hasc, by simp, by norm_num,
    C3_compute_duration_amended [(1 : ℝ), 2] 9.81 hasc (by simp) (by norm_num)⟩

/-- C5: for ascending arrays with at least two entries and `k0 > 0`,
`compute_cfl` returns the minimum of the mean x-spacing and the mean
y-spacing divided by the deep-water group velocity at `k0`. -/
theorem C5_compute_cfl_formula (x y : List ℝ) (k0 : ℝ)
    (_hx : Ascending x) (_hy : Ascending y)
    (_hx2 : 2 ≤ x.length) (_hy2 : 2 ≤ y.length) (hk : 0 < k0) :
    ∃ cg, group_velocity k0 = .ok cg ∧
      compute_cfl x y k0 =
        .ok (min (mean (np_diff x)) (mean (np_diff y)) / cg) := by
  obtain ⟨h, hpos⟩ := group_velocity_ok k0 hk
  exact ⟨_, h, compute_cfl_ok x y k0 _ h (ne_of_gt hpos)⟩

/-- Witness for C5 at `x = [0, 1, 2]`, `y = [0, 2]`, `k0 = 1`. -/
theorem C5_compute_cfl_formula_witness :
    Ascending [(0 : ℝ), 1, 2] ∧ Ascending [(0 : ℝ), 2] ∧
    2 ≤ ([(0 : ℝ), 1, 2]).length ∧ 2 ≤ ([(0 : ℝ), 2]).length ∧ (0 : ℝ) < 1 ∧
    (∃ cg, group_velocity 1 = .ok cg ∧
      compute_cfl [(0 : ℝ), 1, 2] [(0 : ℝ), 2] 1 =
        .ok (min (mean (np_diff [(0 : ℝ), 1, 2])) (mean (np_diff [(0 : ℝ), 2])) / cg)) := by
  have hx : Ascending [(0 : ℝ), 1, 2] := by
    simp only [Ascending, List.chain'_cons, List.chain'_singleton, and_true]
    norm_num
  have hy : Ascending [(0 : ℝ), 2] := by
    simp only [Ascending, List.chain'_cons, List.chain'_singleton, and_true]
    norm_num
  exact ⟨hx, hy, by simp, by simp, by norm_num,
    C5_compute_cfl_formula _ _ 1 hx hy (by simp) (by simp) (by norm_num)⟩

/-- C9: there is a valid input — an ascending array whose maximum is
nonnegative and at most half the deep-water group velocity at `k0` —
on which `compute_duration` returns `0`, violating the
`duration > 0` validation invariant of a trace request. -/
theorem C9_compute_duration_zero :
    ∃ (x : List ℝ) (k0 : ℝ), Ascending x ∧ 0 < k0 ∧
      (∃ cg, group_velocity k0 = .ok cg ∧ 0 ≤ npMax x ∧ npMax x ≤ cg / 2) ∧
      compute_duration x k0 = .ok 0 := by
  have hmax : npMax [(0 : ℝ), 1 / 5] = 1 / 5 := by
    simp [npMax, max_def]
  refine ⟨[0, 1 / 5], 9.81, ?_, by norm_num,
    ⟨1 / 2, group_velocity_g, by rw [hmax]; norm_num, by rw [hmax]; norm_num⟩, ?_⟩
  · simp only [Ascending, List.chain'_cons, List.chain'_singleton, and_true]
    norm_num
  · rw [compute_duration_ok _ _ _ group_velocity_g (by norm_num), hmax,
      show (1 / 5 : ℝ) / (1 / 2) = 2 / 5 by norm_num,
      pyRound_eq_of_lt_half (2 / 5) 0 (by norm_num) (by norm_num)]

/-- C10: `group_velocity` succeeds with a strictly positive value for
every `k > 0` but fails with a division-by-zero error at `k = 0`, and
`compute_cfl` and `compute_duration` propagate that same error when
called with `k0 = 0` instead of validating their input. -/
theorem C10_group_velocity_zero_division (k : ℝ) (hk : 0 < k)
    (x y : List ℝ) :
    (∃ c, group_velocity k = .ok c ∧ 0 < c) ∧
    group_velocity 0 = .error .zeroDivision ∧
    compute_cfl x y 0 = .error .zeroDivision ∧
    compute_duration x 0 = .error .zeroDivision := by
  obtain ⟨h, hpos⟩ := group_velocity_ok k hk
  refine ⟨⟨_, h, hpos⟩, ?_, ?_, ?_⟩
  · unfold group_velocity
    rw [if_pos rfl]
  · simp [compute_cfl, group_velocity]
  · simp [compute_duration, group_velocity]

/-- Witness for C10 at `k = 1`, `x = y = [0, 1]`. -/
theorem C10_group_velocity_zero_division_witness :
    (0 : ℝ) < 1 ∧
    ((∃ c, group_velocity 1 = .ok c ∧ 0 < c) ∧
     group_velocity 0 = .error .zeroDivision ∧
     compute_cfl [(0 : ℝ), 1] [(0 : ℝ), 1] 0 = .error .zeroDivision ∧
     compute_duration [(0 : ℝ), 1] 0 = .error .zeroDivision) :=
  ⟨by norm_num, C10_group_velocity_zero_division 1 (by norm_num) [0, 1] [0, 1]⟩

end Utils

namespace Core

/-- A formal parameter of a Python function: its name and whether the
signature gives it a default value. -/
structure PyParam where
  name : String
  hasDefault : Bool
  deriving DecidableEq, Repr

/-- The signature of `single_ray` in `core.py` (lines 10-19): eight
parameters, none of which has a default — in particular `current` is a
required parameter. -/
def single_ray_params : List PyParam :=
  [⟨"x0", false⟩, ⟨"y0", false⟩, ⟨"kx0", false⟩, ⟨"ky0", false⟩,
   ⟨"duration", false⟩, ⟨"step_size", false⟩,
   ⟨"bathymetry", false⟩, ⟨"current", false⟩]

/-- The signature of `ray_tracing` in `core.py` (lines 49-58): the same
eight parameters, again all without defaults. -/
def ray_tracing_params : List PyParam :=
  [⟨"x0", false⟩, ⟨"y0", false⟩, ⟨"kx0", false⟩, ⟨"ky0", false⟩,
   ⟨"duration", false⟩, ⟨"step_size", false⟩,
   ⟨"bathymetry", false⟩, ⟨"current", false⟩]

/-- How many parameters of a signature must be bound at every call. -/
def requiredCount (ps : List PyParam) : ℕ :=
  (ps.filter (fun p => !p.hasDefault)).length

/-- Python positional call binding: a call with `nargs` positional
arguments binds iff it supplies at least every parameter without a
default and no more than all parameters; otherwise the call raises
`TypeError` before the body runs. -/
def bindsPositionalCall (ps : List PyParam) (nargs : ℕ) : Bool :=
  decide (requiredCount ps ≤ nargs) && decide (nargs ≤ ps.length)

/-- C1 (code bug): `current` has no default in either signature, so a
call that omits it — such as the docstring's own example
`single_ray(-1000, 0, 0.01, 0, 10, 2, "island.nc")` with seven
positional arguments — fails to bind and raises `TypeError`; it is not
accepted with current treated as zero. Calls supplying all eight
arguments do bind. -/
theorem C1_current_parameter_required :
    bindsPositionalCall single_ray_params 7 = false ∧
    bindsPositionalCall ray_tracing_params 7 = false ∧
    (single_ray_params.map PyParam.name).contains "current" = true ∧
    (single_ray_params.filter (fun p => p.hasDefault)).length = 0 ∧
    (ray_tracing_params.filter (fun p => p.hasDefault)).length = 0 ∧
    bindsPositionalCall single_ray_params 8 = true ∧
    bindsPositionalCall ray_tracing_params 8 = true := by
  refine ⟨rfl, rfl, rfl, rfl, rfl, rfl, rfl⟩

/-- One ray state: time, position and wavenumber vector. -/
structure RayState where
  time : ℝ
  x : ℝ
  y : ℝ
  kx : ℝ
  ky : ℝ

/-- The time derivative of a ray state produced by the right-hand-side
function: `(dx/dt, dy/dt, dkx/dt, dky/dt)`. -/
structure RayDeriv where
  dx : ℝ
  dy : ℝ
  dkx : ℝ
  dky : ℝ

/-- The Euler predictor used inside an RK4 stage: advance the state by
`τ` along the derivative `d`. -/
noncomputable def stageAdvance (s : RayState) (τ : ℝ) (d : RayDeriv) : RayState :=
  { time := s.time + τ
    x := s.x + τ * d.dx
    y := s.y + τ * d.dy
    kx := s.kx + τ * d.dkx
    ky := s.ky + τ * d.dky }

/-- Modelled from the spec: the integrator of the Rust engine
`_mantaray` (absent from the sources) is a classical fixed-step
4th-order Runge-Kutta step (spec section 4.4), with four evaluations of
the right-hand-side function at the start, two midpoints and the end of
the step, combined with the standard RK4 weights. The right-hand-side
function is abstracted as the pure function `rhs` (spec section 4.3). -/
noncomputable def rk4Step (rhs : RayState → RayDeriv) (h : ℝ) (s : RayState) :
    RayState :=
  let k1 := rhs s
  let k2 := rhs (stageAdvance s (h / 2) k1)
  let k3 := rhs (stageAdvance s (h / 2) k2)
  let k4 := rhs (stageAdvance s h k3)
  { time := s.time + h
    x := s.x + h / 6 * (k1.dx + 2 * k2.dx + 2 * k3.dx + k4.dx)
    y := s.y + h / 6 * (k1.dy + 2 * k2.dy + 2 * k3.dy + k4.dy)
    kx := s.kx + h / 6 * (k1.dkx + 2 * k2.dkx + 2 * k3.dkx + k4.dkx)
    ky := s.ky + h / 6 * (k1.dky + 2 * k2.dky + 2 * k3.dky + k4.dky) }

/-- Modelled from the spec: an integrator run records the initial state
followed by the states after each of `n` RK4 steps (spec section 4.4;
early termination on `GroundedError`/`OutOfDomainError` is not
modelled, as no claim here depends on it). -/
noncomputable def integrate (rhs : RayState → RayDeriv) (h : ℝ) :
    ℕ → RayState → List RayState
  | 0, s => [s]
  | n + 1, s => s :: integrate rhs h n (rk4Step rhs h s)

/-- Modelled from the spec: number of steps is
`floor(duration / step_size)` (spec section 4.4). -/
noncomputable def numSteps (duration h : ℝ) : ℕ := ⌊duration / h⌋₊

/-- The row the engine emits for one state: `[time, x, y, kx, ky]`. -/
noncomputable def RayState.row (s : RayState) : List ℝ :=
  [s.time, s.x, s.y, s.kx, s.ky]

/-- Modelled from the spec: the initial ray state of ray `i`, at time
zero, taken from the `i`-th entries of the initial-condition arrays. -/
noncomputable def mkInit (x0 y0 kx0 ky0 : List ℝ) (i : ℕ) : RayState :=
  { time := 0
    x := x0.getD i 0
    y := y0.getD i 0
    kx := kx0.getD i 0
    ky := ky0.getD i 0 }

/-- Modelled from the spec: `_mantaray.ray_tracing` integrates one ray
per initial condition, in order (spec sections 4.5 and 6), and returns
the result ray-major: for each ray, the list of per-step rows
`[time, x, y, kx, ky]`. -/
noncomputable def engine_ray_tracing (rhs : RayState → RayDeriv)
    (x0 y0 kx0 ky0 : List ℝ) (duration h : ℝ) : List (List (List ℝ)) :=
  (List.range x0.length).map fun i =>
    (integrate rhs h (numSteps duration h) (mkInit x0 y0 kx0 ky0 i)).map
      RayState.row

/-- Modelled from the spec: `_mantaray.single_ray` integrates the one
ray and returns its per-step rows. -/
noncomputable def engine_single_ray (rhs : RayState → RayDeriv)
    (x0 y0 kx0 ky0 duration h : ℝ) : List (List ℝ) :=
  (integrate rhs h (numSteps duration h) ⟨0, x0, y0, kx0, ky0⟩).map
    RayState.row

/-- Nested-list indexing into a 3-D array, with defaults for
out-of-range indices (all claim statements stay in range). -/
noncomputable def get3 (a : List (List (List ℝ))) (i j k : ℕ) : ℝ :=
  ((a.getD i []).getD j []).getD k 0

/-- Transposition `np.array(tmp).T` on a 3-D array reverses the axis order:
`tmp.T[i][j][k] = tmp[k][j][i]`. -/
noncomputable def npT3 (a : List (List (List ℝ))) (i j k : ℕ) : ℝ :=
  get3 a k j i

/-- The dataset built by `ray_tracing` in `core.py`: data variable `v`
(index into `varnames = ["time", "x", "y", "kx", "ky"]`) is the `v`-th
slice of `tmp.T` with dims `(time_step, ray)`; after
`.transpose("ray", "time_step")` its value at ray `r`, step `s` is
`tmp.T[v][s][r] = tmp[r][s][v]`. -/
noncomputable def ray_tracing_data (rhs : RayState → RayDeriv)
    (x0 y0 kx0 ky0 : List ℝ) (duration h : ℝ) (v r s : ℕ) : ℝ :=
  npT3 (engine_ray_tracing rhs x0 y0 kx0 ky0 duration h) v s r

/-- The dataset built by `single_ray` in `core.py`: variable `v` over
dim `time_step`; `tmp.T[v][s] = tmp[s][v]`. -/
noncomputable def single_ray_data (rhs : RayState → RayDeriv)
    (x0 y0 kx0 ky0 duration h : ℝ) (v s : ℕ) : ℝ :=
  ((engine_single_ray rhs x0 y0 kx0 ky0 duration h).getD s []).getD v 0

/-- An `xr.Dataset` as produced by `ray_tracing`: the data variables
plus the `date_created` attribute, which `core.py` fills with
`str(datetime.datetime.now())` — here the clock reading is an explicit
argument. -/
structure XrBundle where
  data : ℕ → ℕ → ℕ → ℝ
  date_created : String

/-- Embeds `ray_tracing` from `core.py`, with the wall-clock reading made an
explicit argument `now`. -/
noncomputable def ray_tracing (rhs : RayState → RayDeriv)
    (x0 y0 kx0 ky0 : List ℝ) (duration h : ℝ) (now : String) : XrBundle :=
  { data := ray_tracing_data rhs x0 y0 kx0 ky0 duration h
    date_created := now }

/-- An `xr.Dataset` as produced by `single_ray`: one ray, so the data
variables are indexed by variable and time step only. -/
structure XrSingle where
  data : ℕ → ℕ → ℝ
  date_created : String

/-- Embeds `single_ray` from `core.py`, with the wall-clock reading made an
explicit argument `now`. -/
noncomputable def single_ray (rhs : RayState → RayDeriv)
    (x0 y0 kx0 ky0 duration h : ℝ) (now : String) : XrSingle :=
  { data := single_ray_data rhs x0 y0 kx0 ky0 duration h
    date_created := now }

/-- A trajectory has one sample more than the number of steps. -/
lemma integrate_length (rhs : RayState → RayDeriv) (h : ℝ) :
    ∀ (n : ℕ) (s : RayState), (integrate rhs h n s).length = n + 1 := by
  intro n
  induction n with
  | zero => intro s; rfl
  | succ n ih => intro s; simp [integrate, ih]

/-- The `j`-th sample of a trajectory carries time `s.time + j·h`. -/
lemma integrate_time (rhs : RayState → RayDeriv) (h : ℝ) :
    ∀ (n j : ℕ) (s : RayState), j ≤ n →
      ((integrate rhs h n s).getD j ⟨0, 0, 0, 0, 0⟩).time = s.time + j * h := by
  intro n
  induction n with
  | zero =>
    intro j s hj
    rw [Nat.le_zero] at hj
    subst hj
    simp [integrate]
  | succ n ih =>
    intro j s hj
    cases j with
    | zero => simp [integrate]
    | succ j =>
      have hstep : (rk4Step rhs h s).time = s.time + h := rfl
      rw [show integrate rhs h (n + 1) s
            = s :: integrate rhs h n (rk4Step rhs h s) from rfl,
        List.getD_cons_succ, ih j _ (Nat.le_of_succ_le_succ hj), hstep]
      push_cast
      ring

/-- Ray `r` of the engine output is the integration of initial state
`r`, row by row. -/
lemma engine_ray_tracing_getD (rhs : RayState → RayDeriv)
    (x0 y0 kx0 ky0 : List ℝ) (duration h : ℝ) (r : ℕ) (hr : r < x0.length) :
    (engine_ray_tracing rhs x0 y0 kx0 ky0 duration h).getD r [] =
      (integrate rhs h (numSteps duration h) (mkInit x0 y0 kx0 ky0 r)).map
        RayState.row := by
  unfold engine_ray_tracing
  rw [List.getD_eq_getElem _ _ (by simpa using hr)]
  simp

/-- In-range `getD` through `map RayState.row`. -/
lemma getD_map_row (l : List RayState) (s : ℕ) (hs : s < l.length) :
    (l.map RayState.row).getD s [] = ((l.getD s ⟨0, 0, 0, 0, 0⟩)).row := by
  rw [List.getD_eq_getElem _ _ (by simpa using hs),
    List.getD_eq_getElem _ _ hs, List.getElem_map]

/-- C6 (engine modelled from the spec): for every batch of initial
conditions, `ray_tracing` yields one trajectory per initial state,
order-preserving — ray `r` of the output is the integration of input
`r` — each trajectory a rectangular table of `numSteps + 1` rows whose
variables `time, x, y, kx, ky` (variable indices `0..4`) at step `s`
are the fields of the `s`-th integration sample, row-ordered by
strictly ascending time, stacked along the ray index dimension. -/
theorem C6_ray_tracing_structure (rhs : RayState → RayDeriv)
    (x0 y0 kx0 ky0 : List ℝ) (duration h : ℝ) (hh : 0 < h)
    (r : ℕ) (hr : r < x0.length) :
    ((engine_ray_tracing rhs x0 y0 kx0 ky0 duration h).getD r []).length
        = numSteps duration h + 1 ∧
    (∀ s, s ≤ numSteps duration h →
      ray_tracing_data rhs x0 y0 kx0 ky0 duration h 0 r s =
        ((integrate rhs h (numSteps duration h)
            (mkInit x0 y0 kx0 ky0 r)).getD s ⟨0, 0, 0, 0, 0⟩).time ∧
      ray_tracing_data rhs x0 y0 kx0 ky0 duration h 1 r s =
        ((integrate rhs h (numSteps duration h)
            (mkInit x0 y0 kx0 ky0 r)).getD s ⟨0, 0, 0, 0, 0⟩).x ∧
      ray_tracing_data rhs x0 y0 kx0 ky0 duration h 2 r s =
        ((integrate rhs h (numSteps duration h)
            (mkInit x0 y0 kx0 ky0 r)).getD s ⟨0, 0, 0, 0, 0⟩).y ∧
      ray_tracing_data rhs x0 y0 kx0 ky0 duration h 3 r s =
        ((integrate rhs h (numSteps duration h)
            (mkInit x0 y0 kx0 ky0 r)).getD s ⟨0, 0, 0, 0, 0⟩).kx ∧
      ray_tracing_data rhs x0 y0 kx0 ky0 duration h 4 r s =
        ((integrate rhs h (numSteps duration h)
            (mkInit x0 y0 kx0 ky0 r)).getD s ⟨0, 0, 0, 0, 0⟩).ky) ∧
    (∀ s t, s < t → t ≤ numSteps duration h →
      ray_tracing_data rhs x0 y0 kx0 ky0 duration h 0 r s <
        ray_tracing_data rhs x0 y0 kx0 ky0 duration h 0 r t) := by
  have hlen := integrate_length rhs h (numSteps duration h)
    (mkInit x0 y0 kx0 ky0 r)
  have hget : ∀ s, s ≤ numSteps duration h → ∀ v,
      ray_tracing_data rhs x0 y0 kx0 ky0 duration h v r s =
        (((integrate rhs h (numSteps duration h)
            (mkInit x0 y0 kx0 ky0 r)).getD s ⟨0, 0, 0, 0, 0⟩).row).getD v 0 := by
    intro s hs v
    unfold ray_tracing_data npT3 get3
    rw [engine_ray_tracing_getD rhs x0 y0 kx0 ky0 duration h r hr,
      getD_map_row _ _ (by rw [hlen]; omega)]
  refine ⟨?_, ?_, ?_⟩
  · rw [engine_ray_tracing_getD rhs x0 y0 kx0 ky0 duration h r hr,
      List.length_map, hlen]
  · intro s hs
    exact ⟨hget s hs 0, hget s hs 1, hget s hs 2, hget s hs 3, hget s hs 4⟩
  · intro s t hst ht
    have hs : s ≤ numSteps duration h := le_of_lt (lt_of_lt_of_le hst ht)
    rw [hget s hs 0, hget t ht 0]
    show ((integrate rhs h (numSteps duration h)
        (mkInit x0 y0 kx0 ky0 r)).getD s ⟨0, 0, 0, 0, 0⟩).time <
      ((integrate rhs h (numSteps duration h)
        (mkInit x0 y0 kx0 ky0 r)).getD t ⟨0, 0, 0, 0, 0⟩).time
    rw [integrate_time rhs h _ s _ hs, integrate_time rhs h _ t _ ht]
    have hcast : (s : ℝ) < t := by exact_mod_cast hst
    have := mul_lt_mul_of_pos_right hcast hh
    linarith

/-- A right-hand side with zero derivative everywhere, used to
instantiate witnesses. -/
noncomputable def zeroRhs : RayState → RayDeriv := fun _ => ⟨0, 0, 0, 0⟩

/-- Witness for C6: a batch of one ray, zero derivative, duration 2 and
step 1; variable 0 (time) at ray 0 ascends from step 0 to step 1. -/
theorem C6_ray_tracing_structure_witness :
    (0 : ℝ) < 1 ∧ 0 < ([(1 : ℝ)]).length ∧
    ray_tracing_data zeroRhs [1] [2] [3] [4] 2 1 0 0 0 <
      ray_tracing_data zeroRhs [1] [2] [3] [4] 2 1 0 0 1 := by
  have hmain := C6_ray_tracing_structure zeroRhs [1] [2] [3] [4] 2 1
    (by norm_num) 0 (by simp)
  refine ⟨by norm_num, by simp, hmain.2.2 0 1 (by norm_num) ?_⟩
  show 1 ≤ numSteps 2 1
  unfold numSteps
  norm_num

/-- C7 counterexample: two calls of `single_ray` with identical ray
inputs but different clock readings produce different outputs — the
`date_created` attribute stamped from `datetime.datetime.now()`
differs — so the wrapper output is not identical across identical
calls. -/
theorem C7_counterexample :
    single_ray zeroRhs 0 0 (1 / 100) 0 10 2 "2024-01-01 00:00:00" ≠
      single_ray zeroRhs 0 0 (1 / 100) 0 10 2 "2024-01-01 00:00:01" := by
  intro hcontr
  have hattr := congrArg XrSingle.date_created hcontr
  simp [single_ray] at hattr

/-- C7 amended (engine modelled from the spec): the trajectory data of
`single_ray` and `ray_tracing` is a deterministic function of the ray
inputs — independent of the clock reading — and two identical initial
conditions at batch positions `i` and `j` produce identical
trajectories; only the `date_created` attribute varies between calls. -/
theorem C7_determinism_amended (rhs : RayState → RayDeriv)
    (x0 y0 kx0 ky0 : List ℝ) (sx sy skx sky duration h : ℝ)
    (now1 now2 : String) (i j : ℕ) (hi : i < x0.length) (hj : j < x0.length)
    (hx : x0.getD i 0 = x0.getD j 0) (hy : y0.getD i 0 = y0.getD j 0)
    (hkx : kx0.getD i 0 = kx0.getD j 0) (hky : ky0.getD i 0 = ky0.getD j 0) :
    (ray_tracing rhs x0 y0 kx0 ky0 duration h now1).data =
      (ray_tracing rhs x0 y0 kx0 ky0 duration h now2).data ∧
    (single_ray rhs sx sy skx sky duration h now1).data =
      (single_ray rhs sx sy skx sky duration h now2).data ∧
    (∀ v s, ray_tracing_data rhs x0 y0 kx0 ky0 duration h v i s =
      ray_tracing_data rhs x0 y0 kx0 ky0 duration h v j s) := by
  have hinit : mkInit x0 y0 kx0 ky0 i = mkInit x0 y0 kx0 ky0 j := by
    unfold mkInit
    rw [hx, hy, hkx, hky]
  refine ⟨rfl, rfl, ?_⟩
  intro v s
  unfold ray_tracing_data npT3 get3
  rw [engine_ray_tracing_getD rhs x0 y0 kx0 ky0 duration h i hi,
    engine_ray_tracing_getD rhs x0 y0 kx0 ky0 duration h j hj, hinit]

/-- Witness for C7 (amended): a batch of two identical initial
conditions at positions 0 and 1; data agrees across clock readings and
across the two rays. -/
theorem C7_determinism_amended_witness :
    0 < ([(5 : ℝ), 5]).length ∧ 1 < ([(5 : ℝ), 5]).length ∧
    (ray_tracing zeroRhs [5, 5] [5, 5] [5, 5] [5, 5] 10 2 "a").data =
      (ray_tracing zeroRhs [5, 5] [5, 5] [5, 5] [5, 5] 10 2 "b").data ∧
    ray_tracing_data zeroRhs [5, 5] [5, 5] [5, 5] [5, 5] 10 2 0 0 0 =
      ray_tracing_data zeroRhs [5, 5] [5, 5] [5, 5] [5, 5] 10 2 0 1 0 := by
  have hmain := C7_determinism_amended zeroRhs [5, 5] [5, 5] [5, 5] [5, 5]
    0 0 0 0 10 2 "a" "b" 0 1 (by simp) (by simp) rfl rfl rfl rfl
  exact ⟨by simp, by simp, hmain.1, hmain.2.2 0 0⟩

end Core

namespace Support

/-- The `for` loop of `plot_ray_bundle` in `support.py`: each iteration
`i = 0, …, n−1` re-binds the locals `x`, `y` to the path of ray `i`;
`none` models the locals being unbound before the loop runs. -/
def loopFinalXY (xv yv : List (List ℝ)) (n : ℕ) :
    Option (List ℝ × List ℝ) :=
  (List.range n).foldl (fun _ i => some (xv.getD i [], yv.getD i [])) none

/-- Embeds `plot_ray_bundle(ray_path, ax)` from `support.py`: the loop writes
`x`, `y`, and the single `ax.plot(x, y, color="r")` call sits after the
loop, so at most one line is drawn; with zero rays the loop never runs
and reading the unbound `x` raises `NameError`. The result is the list
of lines (x-path, y-path) drawn on the axes. -/
def plot_ray_bundle (xv yv : List (List ℝ)) (n : ℕ) :
    Except PyErr (List (List ℝ × List ℝ)) :=
  match loopFinalXY xv yv n with
  | none => .error .nameError
  | some p => .ok [p]

/-- After the loop, the locals hold the last ray's path. -/
lemma loopFinalXY_eq_last (xv yv : List (List ℝ)) (n : ℕ) (hn : 1 ≤ n) :
    loopFinalXY xv yv n = some (xv.getD (n - 1) [], yv.getD (n - 1) []) := by
  obtain ⟨m, rfl⟩ : ∃ m, n = m + 1 := ⟨n - 1, by omega⟩
  unfold loopFinalXY
  rw [List.range_succ, List.foldl_append]
  simp

/-- C8: for every bundle of `n ≥ 1` rays, `plot_ray_bundle` draws
exactly one line — the path of the last ray, index `n − 1` — and the
paths of rays `0` through `n − 2` are never drawn. -/
theorem C8_plot_ray_bundle_last_only (xv yv : List (List ℝ)) (n : ℕ)
    (hn : 1 ≤ n) :
    plot_ray_bundle xv yv n =
      .ok [(xv.getD (n - 1) [], yv.getD (n - 1) [])] := by
  unfold plot_ray_bundle
  rw [loopFinalXY_eq_last xv yv n hn]

/-- Witness for C8 with two rays: only ray index 1 is drawn. -/
theorem C8_plot_ray_bundle_last_only_witness :
    1 ≤ 2 ∧
    plot_ray_bundle [[(0 : ℝ)], [1]] [[(2 : ℝ)], [3]] 2 =
      .ok [(([[(0 : ℝ)], [1]]).getD (2 - 1) [],
            ([[(2 : ℝ)], [3]]).getD (2 - 1) [])] :=
  ⟨by norm_num, C8_plot_ray_bundle_last_only [[0], [1]] [[2], [3]] 2 (by norm_num)⟩

end Support
